import Mathlib

/-!
Verification of the proteus key codec (`src/internal/keys/binary.rs`).

The codec serialises cryptographic key material (secret/public keys,
identity keys, key pairs, prekeys and prekey bundles) to a CBOR-style
byte stream and parses it back, rejecting malformed input with typed
errors.

The functions of `binary.rs` are embedded directly.  The CBOR
encoder/decoder primitives (the external `cbor` crate), the
`Bytes32`/`Bytes64` fixed-width readers of `internal/util`, and the
ed25519-to-curve25519 conversions of `internal/keys` are not part of the
given source tree; they are modelled from the specification (sections
4.1, 4.2 and 6: an array container prefixed by its element count,
explicit-length byte strings, and unsigned 16-bit integers written as a
type byte followed by the two big-endian value bytes).  The key
conversion functions are kept as explicit parameters, so every theorem
holds for an arbitrary fixed conversion.
-/

namespace Proteus

/-- Typed decode failures, modelled from the spec's error kinds:
unrecognized version (carries the raw numeric value), array-length
mismatch (carries the declared count), byte-string length mismatch
(expected vs. actual), and underlying stream/format errors. -/
inductive DecodeError where
  | invalidVersion (v : Nat)
  | invalidArrayLen (n : Nat)
  | invalidLength (expected actual : Nat)
  | endOfStream
  | unexpectedType (b : Nat)
deriving DecidableEq

/-- A decode step consumes a prefix of the byte stream and returns the
decoded value together with the remaining bytes, or a typed error. -/
abbrev DecodeResult (α : Type) := Except DecodeError (α × List Nat)

-- CBOR primitives (modelled from the spec) ---------------------------------

/-- Modelled from the spec: the big-endian digit string of width `k`
(most significant byte first) of a natural number, as written by the
stream primitives for multi-byte unsigned values. -/
def natToBE : Nat → Nat → List Nat
  | 0, _ => []
  | k + 1, n => natToBE k (n / 256) ++ [n % 256]

/-- Value of a big-endian digit string. -/
def beVal (bs : List Nat) : Nat := bs.foldl (fun a b => a * 256 + b) 0

/-- Modelled from the spec: compact CBOR item header for major type
`major` with count/length `n` (immediate below 24, otherwise a width
marker followed by the big-endian value bytes). -/
def hdrEnc (major n : Nat) : List Nat :=
  if n < 24 then [32 * major + n]
  else if n < 256 then [32 * major + 24] ++ natToBE 1 n
  else if n < 65536 then [32 * major + 25] ++ natToBE 2 n
  else if n < 4294967296 then [32 * major + 26] ++ natToBE 4 n
  else [32 * major + 27] ++ natToBE 8 n

/-- Modelled from the spec: the stream writes an unsigned 16-bit integer
as the u16 type byte (0x19) followed by the two big-endian value
bytes. -/
def u16enc (n : Nat) : List Nat := [25] ++ natToBE 2 n

/-- Modelled from the spec: an explicit-length byte string is its header
followed by the raw bytes. -/
def bytesEnc (bs : List Nat) : List Nat := hdrEnc 2 bs.length ++ bs

/-- Modelled from the spec: an array container is written as its header
declaring the element count. -/
def arrayEnc (n : Nat) : List Nat := hdrEnc 4 n

/-- Read one byte from the stream. -/
def readByte : List Nat → DecodeResult Nat
  | [] => .error .endOfStream
  | b :: r => .ok (b, r)

/-- Read exactly `k` bytes from the stream. -/
def readN : Nat → List Nat → DecodeResult (List Nat)
  | 0, s => .ok ([], s)
  | _ + 1, [] => .error .endOfStream
  | k + 1, b :: r =>
    match readN k r with
    | .ok (bs, r2) => .ok (b :: bs, r2)
    | .error e => .error e

/-- Modelled from the spec: the unsigned value attached to an item
header with additional-info field `info` (immediate below 24, otherwise
1, 2, 4 or 8 following big-endian bytes). -/
def uintVal (info : Nat) (s : List Nat) : DecodeResult Nat :=
  if info < 24 then .ok (info, s)
  else if info = 24 then
    match readN 1 s with
    | .ok (bs, r) => .ok (beVal bs, r)
    | .error e => .error e
  else if info = 25 then
    match readN 2 s with
    | .ok (bs, r) => .ok (beVal bs, r)
    | .error e => .error e
  else if info = 26 then
    match readN 4 s with
    | .ok (bs, r) => .ok (beVal bs, r)
    | .error e => .error e
  else if info = 27 then
    match readN 8 s with
    | .ok (bs, r) => .ok (beVal bs, r)
    | .error e => .error e
  else .error (.unexpectedType info)

/-- Modelled from the spec: reading an unsigned 16-bit integer accepts
an unsigned item (major type 0) of width at most 16 bits. -/
def u16dec (s : List Nat) : DecodeResult Nat :=
  match readByte s with
  | .error e => .error e
  | .ok (b, r) =>
    if b / 32 = 0 then
      if b % 32 ≤ 25 then uintVal (b % 32) r
      else .error (.unexpectedType b)
    else .error (.unexpectedType b)

/-- Modelled from the spec: reading an array header (major type 4)
returns its declared element count. -/
def arrayDec (s : List Nat) : DecodeResult Nat :=
  match readByte s with
  | .error e => .error e
  | .ok (b, r) =>
    if b / 32 = 4 then uintVal (b % 32) r
    else .error (.unexpectedType b)

/-- Modelled from the spec: reading an explicit-length byte string
(major type 2) returns exactly the declared number of raw bytes. -/
def bytesDec (s : List Nat) : DecodeResult (List Nat) :=
  match readByte s with
  | .error e => .error e
  | .ok (b, r) =>
    if b / 32 = 2 then
      match uintVal (b % 32) r with
      | .ok (len, r2) => readN len r2
      | .error e => .error e
    else .error (.unexpectedType b)

/-- Modelled from the spec (`Bytes32`/`Bytes64` of `internal/util`,
section 4.1): read a byte string and succeed only if its length exactly
matches the expected width, otherwise fail with a length-mismatch error
carrying expected and actual lengths. -/
def bytesNdec (w : Nat) (s : List Nat) : DecodeResult (List Nat) :=
  match bytesDec s with
  | .ok (bs, r) => if bs.length = w then .ok (bs, r) else .error (.invalidLength w bs.length)
  | .error e => .error e

-- Data model (from `internal/keys`, as used by `binary.rs`) ----------------

/-- A secret key: the 64-byte ed25519 signing secret together with the
curve25519 scalar derived from it. -/
structure SecretKey where
  sec_edward : List Nat
  sec_curve : List Nat
deriving DecidableEq

/-- A public key: the 32-byte ed25519 verification key together with the
curve25519 group element derived from it. -/
structure PublicKey where
  pub_edward : List Nat
  pub_curve : List Nat
deriving DecidableEq

/-- An identity key: a role-typed wrapper around a public key. -/
structure IdentityKey where
  public_key : PublicKey
deriving DecidableEq

/-- A key pair: a secret key and the matching public key. -/
structure KeyPair where
  secret_key : SecretKey
  public_key : PublicKey
deriving DecidableEq

/-- The closed protocol-version enumeration, currently only V1. -/
inductive Version where
  | V1
deriving DecidableEq

/-- A long-term identity key pair, version-tagged. -/
structure IdentityKeyPair where
  version : Version
  secret_key : SecretKey
  public_key : IdentityKey
deriving DecidableEq

/-- A prekey identifier: an unsigned 16-bit integer. -/
structure PreKeyId where
  val : Nat
deriving DecidableEq

/-- A one-time prekey: version, identifier and key pair. -/
structure PreKey where
  version : Version
  key_id : PreKeyId
  key_pair : KeyPair
deriving DecidableEq

/-- The published subset of a prekey plus the owner's identity key. -/
structure PreKeyBundle where
  version : Version
  prekey_id : PreKeyId
  public_key : PublicKey
  identity_key : IdentityKey
deriving DecidableEq

-- Codec functions (translated from `binary.rs`) ----------------------------

/-- `enc_secret_key`: emit the 64 signing-secret bytes as a byte
string; the curve scalar is never serialised. -/
def enc_secret_key (k : SecretKey) : List Nat :=
  bytesEnc k.sec_edward

/-- `dec_secret_key`: read a 64-byte string and derive the curve scalar
with the conversion function `convSK` (the `from_ed25519_sk` of the
crypto library, kept as a parameter). -/
def dec_secret_key (convSK : List Nat → List Nat) (s : List Nat) : DecodeResult SecretKey :=
  match bytesNdec 64 s with
  | .ok (v, r) => .ok ({ sec_edward := v, sec_curve := convSK v }, r)
  | .error e => .error e

/-- `enc_public_key`: emit the 32 verification-key bytes as a byte
string; the curve group element is never serialised. -/
def enc_public_key (k : PublicKey) : List Nat :=
  bytesEnc k.pub_edward

/-- `dec_public_key`: read a 32-byte string and derive the curve group
element with the conversion function `convPK` (the `from_ed25519_pk` of
the crypto library, kept as a parameter). -/
def dec_public_key (convPK : List Nat → List Nat) (s : List Nat) : DecodeResult PublicKey :=
  match bytesNdec 32 s with
  | .ok (v, r) => .ok ({ pub_edward := v, pub_curve := convPK v }, r)
  | .error e => .error e

/-- `enc_identity_key`: delegate to the public-key encoder. -/
def enc_identity_key (k : IdentityKey) : List Nat :=
  enc_public_key k.public_key

/-- `dec_identity_key`: delegate to the public-key decoder and wrap. -/
def dec_identity_key (convPK : List Nat → List Nat) (s : List Nat) : DecodeResult IdentityKey :=
  match dec_public_key convPK s with
  | .ok (k, r) => .ok ({ public_key := k }, r)
  | .error e => .error e

/-- `enc_version`: V1 is written as the unsigned 16-bit value 1. -/
def enc_version (v : Version) : List Nat :=
  match v with
  | .V1 => u16enc 1

/-- `dec_version`: read an unsigned 16-bit value; 1 maps to V1, any
other value fails with an unrecognized-version error carrying the
value. -/
def dec_version (s : List Nat) : DecodeResult Version :=
  match u16dec s with
  | .ok (n, r) => if n = 1 then .ok (.V1, r) else .error (.invalidVersion n)
  | .error e => .error e

/-- `enc_identity_keypair`: array(3), version, secret key, identity
key. -/
def enc_identity_keypair (k : IdentityKeyPair) : List Nat :=
  match k.version with
  | .V1 =>
    arrayEnc 3 ++ enc_version k.version ++ enc_secret_key k.secret_key
      ++ enc_identity_key k.public_key

/-- `dec_identity_keypair`: read the array length, then the version;
under V1 require length 3, then read secret key and identity key. -/
def dec_identity_keypair (convSK convPK : List Nat → List Nat) (s : List Nat) :
    DecodeResult IdentityKeyPair :=
  match arrayDec s with
  | .error e => .error e
  | .ok (n, s1) =>
    match dec_version s1 with
    | .error e => .error e
    | .ok (v, s2) =>
      match v with
      | .V1 =>
        if n ≠ 3 then .error (.invalidArrayLen n)
        else
          match dec_secret_key convSK s2 with
          | .error e => .error e
          | .ok (sk, s3) =>
            match dec_identity_key convPK s3 with
            | .error e => .error e
            | .ok (pk, s4) => .ok ({ version := v, secret_key := sk, public_key := pk }, s4)

/-- `enc_prekey_id`: a bare unsigned 16-bit integer. -/
def enc_prekey_id (k : PreKeyId) : List Nat :=
  u16enc k.val

/-- `dec_prekey_id`: read an unsigned 16-bit integer. -/
def dec_prekey_id (s : List Nat) : DecodeResult PreKeyId :=
  match u16dec s with
  | .ok (n, r) => .ok ({ val := n }, r)
  | .error e => .error e

/-- `enc_keypair`: secret-key bytes immediately followed by public-key
bytes, with no envelope and no length or version tag. -/
def enc_keypair (k : KeyPair) : List Nat :=
  enc_secret_key k.secret_key ++ enc_public_key k.public_key

/-- `dec_keypair`: read a secret key, then a public key, in that fixed
order. -/
def dec_keypair (convSK convPK : List Nat → List Nat) (s : List Nat) : DecodeResult KeyPair :=
  match dec_secret_key convSK s with
  | .error e => .error e
  | .ok (sk, s1) =>
    match dec_public_key convPK s1 with
    | .error e => .error e
    | .ok (pk, s2) => .ok ({ secret_key := sk, public_key := pk }, s2)

/-- `enc_prekey`: array(3), version, prekey id, key pair. -/
def enc_prekey (k : PreKey) : List Nat :=
  match k.version with
  | .V1 =>
    arrayEnc 3 ++ enc_version k.version ++ enc_prekey_id k.key_id ++ enc_keypair k.key_pair

/-- `dec_prekey`: read the array length, then the version; under V1
require length 3, then read prekey id and key pair. -/
def dec_prekey (convSK convPK : List Nat → List Nat) (s : List Nat) : DecodeResult PreKey :=
  match arrayDec s with
  | .error e => .error e
  | .ok (n, s1) =>
    match dec_version s1 with
    | .error e => .error e
    | .ok (v, s2) =>
      match v with
      | .V1 =>
        if n ≠ 3 then .error (.invalidArrayLen n)
        else
          match dec_prekey_id s2 with
          | .error e => .error e
          | .ok (id, s3) =>
            match dec_keypair convSK convPK s3 with
            | .error e => .error e
            | .ok (kp, s4) => .ok ({ version := v, key_id := id, key_pair := kp }, s4)

/-- `enc_prekey_bundle`: array(4), version, prekey id, public key,
identity key. -/
def enc_prekey_bundle (k : PreKeyBundle) : List Nat :=
  match k.version with
  | .V1 =>
    arrayEnc 4 ++ enc_version k.version ++ enc_prekey_id k.prekey_id
      ++ enc_public_key k.public_key ++ enc_identity_key k.identity_key

/-- `dec_prekey_bundle`: read the array length, then the version; under
V1 require length 4, then read prekey id, public key and identity
key. -/
def dec_prekey_bundle (convPK : List Nat → List Nat) (s : List Nat) :
    DecodeResult PreKeyBundle :=
  match arrayDec s with
  | .error e => .error e
  | .ok (n, s1) =>
    match dec_version s1 with
    | .error e => .error e
    | .ok (v, s2) =>
      match v with
      | .V1 =>
        if n ≠ 4 then .error (.invalidArrayLen n)
        else
          match dec_prekey_id s2 with
          | .error e => .error e
          | .ok (id, s3) =>
            match dec_public_key convPK s3 with
            | .error e => .error e
            | .ok (pk, s4) =>
              match dec_identity_key convPK s4 with
              | .error e => .error e
              | .ok (ik, s5) =>
                .ok ({ version := v, prekey_id := id, public_key := pk, identity_key := ik }, s5)

-- Validity predicates (the data-model invariants of the spec) --------------

/-- A valid secret key: 64 signing bytes, curve scalar derived by the
conversion function. -/
def validSK (convSK : List Nat → List Nat) (k : SecretKey) : Prop :=
  k.sec_edward.length = 64 ∧ k.sec_curve = convSK k.sec_edward

/-- A valid public key: 32 signing bytes, curve element derived by the
conversion function. -/
def validPK (convPK : List Nat → List Nat) (k : PublicKey) : Prop :=
  k.pub_edward.length = 32 ∧ k.pub_curve = convPK k.pub_edward

/-- A valid identity key wraps a valid public key. -/
def validIK (convPK : List Nat → List Nat) (k : IdentityKey) : Prop :=
  validPK convPK k.public_key

/-- A valid key pair has valid components. -/
def validKP (convSK convPK : List Nat → List Nat) (k : KeyPair) : Prop :=
  validSK convSK k.secret_key ∧ validPK convPK k.public_key

/-- A valid prekey id fits in 16 bits. -/
def validPreKeyId (k : PreKeyId) : Prop :=
  k.val < 65536

/-- A valid identity key pair has valid components. -/
def validIKP (convSK convPK : List Nat → List Nat) (k : IdentityKeyPair) : Prop :=
  validSK convSK k.secret_key ∧ validIK convPK k.public_key

/-- A valid prekey has valid components. -/
def validPre (convSK convPK : List Nat → List Nat) (k : PreKey) : Prop :=
  validPreKeyId k.key_id ∧ validKP convSK convPK k.key_pair

/-- A valid prekey bundle has valid components. -/
def validPB (convPK : List Nat → List Nat) (k : PreKeyBundle) : Prop :=
  validPreKeyId k.prekey_id ∧ validPK convPK k.public_key ∧ validIK convPK k.identity_key

-- Concrete sample values (used to witness the theorems below) --------------

/-- A sample conversion from 64 signing-secret bytes to a 32-byte
scalar. -/
def convSK0 : List Nat → List Nat := fun bs => bs.take 32

/-- A sample conversion from 32 verification-key bytes to a 32-byte
group element. -/
def convPK0 : List Nat → List Nat := fun bs => bs

/-- A sample 64-byte signing secret. -/
def ed64 : List Nat := List.replicate 64 7

/-- A sample 32-byte verification key. -/
def ed32 : List Nat := List.replicate 32 3

/-- A sample valid secret key. -/
def sk0 : SecretKey := { sec_edward := ed64, sec_curve := convSK0 ed64 }

/-- A sample valid public key. -/
def pk0 : PublicKey := { pub_edward := ed32, pub_curve := convPK0 ed32 }

/-- A sample valid identity key. -/
def ik0 : IdentityKey := { public_key := pk0 }

/-- A sample valid key pair. -/
def kp0 : KeyPair := { secret_key := sk0, public_key := pk0 }

/-- A sample valid identity key pair. -/
def ikp0 : IdentityKeyPair := { version := .V1, secret_key := sk0, public_key := ik0 }

/-- A sample valid prekey id. -/
def pid0 : PreKeyId := { val := 42 }

/-- A sample valid prekey. -/
def pre0 : PreKey := { version := .V1, key_id := pid0, key_pair := kp0 }

/-- A sample valid prekey bundle. -/
def pb0 : PreKeyBundle :=
  { version := .V1, prekey_id := pid0, public_key := pk0, identity_key := ik0 }

-- Stream-primitive lemmas --------------------------------------------------

/-- Reading back exactly the bytes just written leaves the rest. -/
theorem readN_append (bs rest : List Nat) : readN bs.length (bs ++ rest) = .ok (bs, rest) := by
  induction bs with
  | nil => rfl
  | cons b t ih => simp [readN, ih]

/-- The big-endian digit string of width `k` has length `k`. -/
theorem natToBE_length (k n : Nat) : (natToBE k n).length = k := by
  induction k generalizing n with
  | zero => rfl
  | succ k ih => simp [natToBE, ih]

/-- Appending one digit multiplies the value by the base. -/
theorem beVal_append_one (bs : List Nat) (b : Nat) : beVal (bs ++ [b]) = beVal bs * 256 + b := by
  simp [beVal, List.foldl_append]

/-- The value of the width-`k` digit string of `n` is `n` when `n` fits. -/
theorem beVal_natToBE (k n : Nat) (h : n < 256 ^ k) : beVal (natToBE k n) = n := by
  induction k generalizing n with
  | zero =>
    have : n = 0 := by simpa using h
    simp [this, natToBE, beVal]
  | succ k ih =>
    have hdiv : n / 256 < 256 ^ k := by
      rw [Nat.div_lt_iff_lt_mul (by norm_num)]
      calc n < 256 ^ (k + 1) := h
        _ = 256 ^ k * 256 := by ring
    rw [natToBE, beVal_append_one, ih (n / 256) hdiv]
    omega

/-- Reading back a width-`k` digit string recovers it. -/
theorem readN_natToBE (k n : Nat) (rest : List Nat) :
    readN k (natToBE k n ++ rest) = .ok (natToBE k n, rest) := by
  have h := readN_append (natToBE k n) rest
  rwa [natToBE_length] at h

/-- Decoding the one-byte value field recovers a count below 256. -/
theorem uintVal_w1 (n : Nat) (rest : List Nat) (h : n < 256) :
    uintVal 24 (natToBE 1 n ++ rest) = .ok (n, rest) := by
  have hv : beVal (natToBE 1 n) = n := beVal_natToBE 1 n (by simpa using h)
  simp [uintVal, readN_natToBE, hv]

/-- Decoding the two-byte value field recovers a count below 65536. -/
theorem uintVal_w2 (n : Nat) (rest : List Nat) (h : n < 65536) :
    uintVal 25 (natToBE 2 n ++ rest) = .ok (n, rest) := by
  have hv : beVal (natToBE 2 n) = n := beVal_natToBE 2 n (by norm_num [h])
  simp [uintVal, readN_natToBE, hv]

/-- Reading back a u16 item recovers the value and the rest. -/
theorem u16dec_u16enc (n : Nat) (rest : List Nat) (h : n < 65536) :
    u16dec (u16enc n ++ rest) = .ok (n, rest) := by
  simp [u16enc, u16dec, readByte, uintVal_w2 n rest h]

/-- Reading back an array header with a small count recovers it. -/
theorem arrayDec_arrayEnc (n : Nat) (rest : List Nat) (h : n < 24) :
    arrayDec (arrayEnc n ++ rest) = .ok (n, rest) := by
  have hd : (32 * 4 + n) / 32 = 4 := by omega
  have hm : (32 * 4 + n) % 32 = n := by omega
  simp [arrayEnc, hdrEnc, h, arrayDec, readByte, hd, hm, uintVal]

/-- Reading back a byte string of length below 256 recovers the bytes
and the rest. -/
theorem bytesDec_bytesEnc (bs rest : List Nat) (h : bs.length < 256) :
    bytesDec (bytesEnc bs ++ rest) = .ok (bs, rest) := by
  by_cases h24 : bs.length < 24
  · have hd : (32 * 2 + bs.length) / 32 = 2 := by omega
    have hm : (32 * 2 + bs.length) % 32 = bs.length := by omega
    simp [bytesEnc, hdrEnc, h24, bytesDec, readByte, hd, hm, uintVal, readN_append]
  · have hd : (32 * 2 + 24) / 32 = 2 := by norm_num
    have hm : (32 * 2 + 24) % 32 = 24 := by norm_num
    simp only [bytesEnc, hdrEnc, if_neg h24, if_pos h, List.append_assoc, List.cons_append,
      List.nil_append]
    simp [bytesDec, readByte, hd, hm, uintVal_w1 bs.length (bs ++ rest) h, readN_append]

/-- Reading back a fixed-width byte string through the width check. -/
theorem bytesNdec_bytesEnc (w : Nat) (bs rest : List Nat) (h : bs.length = w) (hw : w < 256) :
    bytesNdec w (bytesEnc bs ++ rest) = .ok (bs, rest) := by
  simp [bytesNdec, bytesDec_bytesEnc bs rest (by omega), h]

-- Codec roundtrip lemmas ---------------------------------------------------

/-- Secret-key roundtrip, with arbitrary trailing bytes. -/
theorem dec_enc_secret_key (convSK : List Nat → List Nat) (k : SecretKey) (rest : List Nat)
    (h : validSK convSK k) :
    dec_secret_key convSK (enc_secret_key k ++ rest) = .ok (k, rest) := by
  obtain ⟨hl, hc⟩ := h
  cases k with
  | mk e c =>
    simp only [validSK] at hl hc
    simp [enc_secret_key, dec_secret_key,
      bytesNdec_bytesEnc 64 e rest hl (by norm_num), hc]

/-- Public-key roundtrip, with arbitrary trailing bytes. -/
theorem dec_enc_public_key (convPK : List Nat → List Nat) (k : PublicKey) (rest : List Nat)
    (h : validPK convPK k) :
    dec_public_key convPK (enc_public_key k ++ rest) = .ok (k, rest) := by
  obtain ⟨hl, hc⟩ := h
  cases k with
  | mk e c =>
    simp only [validPK] at hl hc
    simp [enc_public_key, dec_public_key,
      bytesNdec_bytesEnc 32 e rest hl (by norm_num), hc]

/-- Identity-key roundtrip, with arbitrary trailing bytes. -/
theorem dec_enc_identity_key (convPK : List Nat → List Nat) (k : IdentityKey) (rest : List Nat)
    (h : validIK convPK k) :
    dec_identity_key convPK (enc_identity_key k ++ rest) = .ok (k, rest) := by
  cases k with
  | mk p =>
    simp [enc_identity_key, dec_identity_key, dec_enc_public_key convPK p rest h]

/-- Version roundtrip, with arbitrary trailing bytes. -/
theorem dec_enc_version (v : Version) (rest : List Nat) :
    dec_version (enc_version v ++ rest) = .ok (v, rest) := by
  cases v
  simp [enc_version, dec_version, u16dec_u16enc 1 rest (by norm_num)]

/-- Prekey-id roundtrip, with arbitrary trailing bytes. -/
theorem dec_enc_prekey_id (k : PreKeyId) (rest : List Nat) (h : validPreKeyId k) :
    dec_prekey_id (enc_prekey_id k ++ rest) = .ok (k, rest) := by
  cases k with
  | mk n =>
    simp only [validPreKeyId] at h
    simp [enc_prekey_id, dec_prekey_id, u16dec_u16enc n rest h]

/-- Key-pair roundtrip, with arbitrary trailing bytes. -/
theorem dec_enc_keypair (convSK convPK : List Nat → List Nat) (k : KeyPair) (rest : List Nat)
    (h : validKP convSK convPK k) :
    dec_keypair convSK convPK (enc_keypair k ++ rest) = .ok (k, rest) := by
  obtain ⟨hs, hp⟩ := h
  cases k with
  | mk sk pk =>
    simp only [enc_keypair, List.append_assoc]
    simp [dec_keypair, dec_enc_secret_key convSK sk _ hs, dec_enc_public_key convPK pk rest hp]

/-- Identity-key-pair roundtrip, with arbitrary trailing bytes. -/
theorem dec_enc_identity_keypair (convSK convPK : List Nat → List Nat) (k : IdentityKeyPair)
    (rest : List Nat) (h : validIKP convSK convPK k) :
    dec_identity_keypair convSK convPK (enc_identity_keypair k ++ rest) = .ok (k, rest) := by
  obtain ⟨hs, hi⟩ := h
  cases k with
  | mk v sk pk =>
    cases v
    simp only [enc_identity_keypair, List.append_assoc]
    simp [dec_identity_keypair, arrayDec_arrayEnc 3 _ (by norm_num), dec_enc_version,
      dec_enc_secret_key convSK sk _ hs, dec_enc_identity_key convPK pk rest hi]

/-- Prekey roundtrip, with arbitrary trailing bytes. -/
theorem dec_enc_prekey (convSK convPK : List Nat → List Nat) (k : PreKey) (rest : List Nat)
    (h : validPre convSK convPK k) :
    dec_prekey convSK convPK (enc_prekey k ++ rest) = .ok (k, rest) := by
  obtain ⟨hid, hkp⟩ := h
  cases k with
  | mk v id kp =>
    cases v
    simp only [enc_prekey, List.append_assoc]
    simp [dec_prekey, arrayDec_arrayEnc 3 _ (by norm_num), dec_enc_version,
      dec_enc_prekey_id id _ hid, dec_enc_keypair convSK convPK kp rest hkp]

/-- Prekey-bundle roundtrip, with arbitrary trailing bytes. -/
theorem dec_enc_prekey_bundle (convPK : List Nat → List Nat) (k : PreKeyBundle)
    (rest : List Nat) (h : validPB convPK k) :
    dec_prekey_bundle convPK (enc_prekey_bundle k ++ rest) = .ok (k, rest) := by
  obtain ⟨hid, hpk, hik⟩ := h
  cases k with
  | mk v id pk ik =>
    cases v
    simp only [enc_prekey_bundle, List.append_assoc]
    simp [dec_prekey_bundle, arrayDec_arrayEnc 4 _ (by norm_num), dec_enc_version,
      dec_enc_prekey_id id _ hid, dec_enc_public_key convPK pk _ hpk,
      dec_enc_identity_key convPK ik rest hik]

-- Claim theorems -----------------------------------------------------------

/-- C1: for every valid SecretKey, PublicKey, IdentityKey, KeyPair,
IdentityKeyPair, PreKey and PreKeyBundle value, decoding the encoding
succeeds and reconstructs the value equal in all fields, including the
derived key-agreement components. -/
theorem claim1_roundtrip_identity (convSK convPK : List Nat → List Nat)
    (sk : SecretKey) (pk : PublicKey) (ik : IdentityKey) (kp : KeyPair)
    (ikp : IdentityKeyPair) (pre : PreKey) (pb : PreKeyBundle)
    (hsk : validSK convSK sk) (hpk : validPK convPK pk) (hik : validIK convPK ik)
    (hkp : validKP convSK convPK kp) (hikp : validIKP convSK convPK ikp)
    (hpre : validPre convSK convPK pre) (hpb : validPB convPK pb) :
    dec_secret_key convSK (enc_secret_key sk) = .ok (sk, []) ∧
    dec_public_key convPK (enc_public_key pk) = .ok (pk, []) ∧
    dec_identity_key convPK (enc_identity_key ik) = .ok (ik, []) ∧
    dec_keypair convSK convPK (enc_keypair kp) = .ok (kp, []) ∧
    dec_identity_keypair convSK convPK (enc_identity_keypair ikp) = .ok (ikp, []) ∧
    dec_prekey convSK convPK (enc_prekey pre) = .ok (pre, []) ∧
    dec_prekey_bundle convPK (enc_prekey_bundle pb) = .ok (pb, []) := by
  refine ⟨?_, ?_, ?_, ?_, ?_, ?_, ?_⟩
  · simpa using dec_enc_secret_key convSK sk [] hsk
  · simpa using dec_enc_public_key convPK pk [] hpk
  · simpa using dec_enc_identity_key convPK ik [] hik
  · simpa using dec_enc_keypair convSK convPK kp [] hkp
  · simpa using dec_enc_identity_keypair convSK convPK ikp [] hikp
  · simpa using dec_enc_prekey convSK convPK pre [] hpre
  · simpa using dec_enc_prekey_bundle convPK pb [] hpb

/-- Witness for C1 at concrete sample values. -/
theorem claim1_roundtrip_identity_witness :
    dec_secret_key convSK0 (enc_secret_key sk0) = .ok (sk0, []) ∧
    dec_public_key convPK0 (enc_public_key pk0) = .ok (pk0, []) ∧
    dec_identity_key convPK0 (enc_identity_key ik0) = .ok (ik0, []) ∧
    dec_keypair convSK0 convPK0 (enc_keypair kp0) = .ok (kp0, []) ∧
    dec_identity_keypair convSK0 convPK0 (enc_identity_keypair ikp0) = .ok (ikp0, []) ∧
    dec_prekey convSK0 convPK0 (enc_prekey pre0) = .ok (pre0, []) ∧
    dec_prekey_bundle convPK0 (enc_prekey_bundle pb0) = .ok (pb0, []) :=
  claim1_roundtrip_identity convSK0 convPK0 sk0 pk0 ik0 kp0 ikp0 pre0 pb0
    ⟨rfl, rfl⟩ ⟨rfl, rfl⟩ ⟨rfl, rfl⟩ ⟨⟨rfl, rfl⟩, ⟨rfl, rfl⟩⟩
    ⟨⟨rfl, rfl⟩, ⟨rfl, rfl⟩⟩ ⟨by norm_num [validPreKeyId, pre0, pid0], ⟨rfl, rfl⟩, ⟨rfl, rfl⟩⟩
    ⟨by norm_num [validPreKeyId, pb0, pid0], ⟨rfl, rfl⟩, ⟨rfl, rfl⟩⟩

/-- C2: whenever the composite payload carries a version tag whose u16
value is not 1, dec_identity_keypair, dec_prekey and dec_prekey_bundle
fail with an unrecognized-version error carrying the offending value,
regardless of the rest of the payload. -/
theorem claim2_version_enforcement (convSK convPK : List Nat → List Nat)
    (s s1 s2 : List Nat) (n v : Nat)
    (ha : arrayDec s = .ok (n, s1)) (hv : u16dec s1 = .ok (v, s2)) (hne : v ≠ 1) :
    dec_identity_keypair convSK convPK s = .error (.invalidVersion v) ∧
    dec_prekey convSK convPK s = .error (.invalidVersion v) ∧
    dec_prekey_bundle convPK s = .error (.invalidVersion v) := by
  have hdv : dec_version s1 = .error (.invalidVersion v) := by
    simp [dec_version, hv, hne]
  exact ⟨by simp [dec_identity_keypair, ha, hdv],
    by simp [dec_prekey, ha, hdv],
    by simp [dec_prekey_bundle, ha, hdv]⟩

/-- Witness for C2: array of 3, version tag 2. -/
theorem claim2_version_enforcement_witness :
    dec_identity_keypair convSK0 convPK0 (arrayEnc 3 ++ u16enc 2) =
      .error (.invalidVersion 2) ∧
    dec_prekey convSK0 convPK0 (arrayEnc 3 ++ u16enc 2) = .error (.invalidVersion 2) ∧
    dec_prekey_bundle convPK0 (arrayEnc 3 ++ u16enc 2) = .error (.invalidVersion 2) :=
  claim2_version_enforcement convSK0 convPK0 (arrayEnc 3 ++ u16enc 2) (u16enc 2) [] 3 2
    rfl rfl (by decide)

/-- C3: with version tag 1 but a declared array length different from
the field count of version 1 (3 for IdentityKeyPair and PreKey, 4 for
PreKeyBundle), the composite decoders fail with an array-length-mismatch
error carrying the declared count. -/
theorem claim3_array_len_enforcement (convSK convPK : List Nat → List Nat)
    (s s1 s2 : List Nat) (n : Nat)
    (ha : arrayDec s = .ok (n, s1)) (hv : u16dec s1 = .ok (1, s2)) :
    (n ≠ 3 → dec_identity_keypair convSK convPK s = .error (.invalidArrayLen n)) ∧
    (n ≠ 3 → dec_prekey convSK convPK s = .error (.invalidArrayLen n)) ∧
    (n ≠ 4 → dec_prekey_bundle convPK s = .error (.invalidArrayLen n)) := by
  have hdv : dec_version s1 = .ok (.V1, s2) := by
    simp [dec_version, hv]
  exact ⟨fun h3 => by simp [dec_identity_keypair, ha, hdv, h3],
    fun h3 => by simp [dec_prekey, ha, hdv, h3],
    fun h4 => by simp [dec_prekey_bundle, ha, hdv, h4]⟩

/-- Witness for C3: array of 5, version tag 1. -/
theorem claim3_array_len_enforcement_witness :
    dec_identity_keypair convSK0 convPK0 (arrayEnc 5 ++ u16enc 1) =
      .error (.invalidArrayLen 5) ∧
    dec_prekey convSK0 convPK0 (arrayEnc 5 ++ u16enc 1) = .error (.invalidArrayLen 5) ∧
    dec_prekey_bundle convPK0 (arrayEnc 5 ++ u16enc 1) = .error (.invalidArrayLen 5) := by
  have h := claim3_array_len_enforcement convSK0 convPK0 (arrayEnc 5 ++ u16enc 1)
    (u16enc 1) [] 5 rfl rfl
  exact ⟨h.1 (by decide), h.2.1 (by decide), h.2.2 (by decide)⟩

/-- C10: the version tag is validated before the declared array length:
when both are wrong, the composite decoders fail with the
unrecognized-version error, never the array-length-mismatch error. -/
theorem claim10_version_checked_first (convSK convPK : List Nat → List Nat)
    (s s1 s2 : List Nat) (n v : Nat)
    (ha : arrayDec s = .ok (n, s1)) (hv : u16dec s1 = .ok (v, s2)) (hne : v ≠ 1)
    (_hn3 : n ≠ 3) (_hn4 : n ≠ 4) :
    (dec_identity_keypair convSK convPK s = .error (.invalidVersion v) ∧
     dec_identity_keypair convSK convPK s ≠ .error (.invalidArrayLen n)) ∧
    (dec_prekey convSK convPK s = .error (.invalidVersion v) ∧
     dec_prekey convSK convPK s ≠ .error (.invalidArrayLen n)) ∧
    (dec_prekey_bundle convPK s = .error (.invalidVersion v) ∧
     dec_prekey_bundle convPK s ≠ .error (.invalidArrayLen n)) := by
  obtain ⟨h1, h2, h3⟩ := claim2_version_enforcement convSK convPK s s1 s2 n v ha hv hne
  exact ⟨⟨h1, by simp [h1]⟩, ⟨h2, by simp [h2]⟩, ⟨h3, by simp [h3]⟩⟩

/-- Witness for C10: array of 5, version tag 7. -/
theorem claim10_version_checked_first_witness :
    (dec_identity_keypair convSK0 convPK0 (arrayEnc 5 ++ u16enc 7) =
       .error (.invalidVersion 7) ∧
     dec_identity_keypair convSK0 convPK0 (arrayEnc 5 ++ u16enc 7) ≠
       .error (.invalidArrayLen 5)) ∧
    (dec_prekey convSK0 convPK0 (arrayEnc 5 ++ u16enc 7) = .error (.invalidVersion 7) ∧
     dec_prekey convSK0 convPK0 (arrayEnc 5 ++ u16enc 7) ≠ .error (.invalidArrayLen 5)) ∧
    (dec_prekey_bundle convPK0 (arrayEnc 5 ++ u16enc 7) = .error (.invalidVersion 7) ∧
     dec_prekey_bundle convPK0 (arrayEnc 5 ++ u16enc 7) ≠ .error (.invalidArrayLen 5)) :=
  claim10_version_checked_first convSK0 convPK0 (arrayEnc 5 ++ u16enc 7) (u16enc 7) [] 5 7
    rfl rfl (by decide) (by decide) (by decide)

/-- C4: dec_secret_key succeeds only when the byte string it reads has
length exactly 64, and dec_public_key only for length exactly 32; any
other length fails with a length-mismatch error. -/
theorem claim4_length_enforcement (convSK convPK : List Nat → List Nat)
    (s bs r : List Nat) (hb : bytesDec s = .ok (bs, r)) :
    (bs.length ≠ 64 → dec_secret_key convSK s = .error (.invalidLength 64 bs.length)) ∧
    (bs.length = 64 →
      dec_secret_key convSK s = .ok ({ sec_edward := bs, sec_curve := convSK bs }, r)) ∧
    (bs.length ≠ 32 → dec_public_key convPK s = .error (.invalidLength 32 bs.length)) ∧
    (bs.length = 32 →
      dec_public_key convPK s = .ok ({ pub_edward := bs, pub_curve := convPK bs }, r)) := by
  refine ⟨fun h => ?_, fun h => ?_, fun h => ?_, fun h => ?_⟩ <;>
    simp [dec_secret_key, dec_public_key, bytesNdec, hb, h]

/-- Witness for C4 on a 63-byte string. -/
theorem claim4_length_enforcement_witness :
    (63 ≠ 64 →
      dec_secret_key convSK0 (bytesEnc (List.replicate 63 1)) =
        .error (.invalidLength 64 63)) ∧
    ((63 : Nat) = 64 →
      dec_secret_key convSK0 (bytesEnc (List.replicate 63 1)) =
        .ok ({ sec_edward := List.replicate 63 1,
               sec_curve := convSK0 (List.replicate 63 1) }, [])) ∧
    (63 ≠ 32 →
      dec_public_key convPK0 (bytesEnc (List.replicate 63 1)) =
        .error (.invalidLength 32 63)) ∧
    ((63 : Nat) = 32 →
      dec_public_key convPK0 (bytesEnc (List.replicate 63 1)) =
        .ok ({ pub_edward := List.replicate 63 1,
               pub_curve := convPK0 (List.replicate 63 1) }, [])) := by
  have h := claim4_length_enforcement convSK0 convPK0 (bytesEnc (List.replicate 63 1))
    (List.replicate 63 1) [] rfl
  simpa using h

/-- C5: the secret- and public-key encoders emit only the
signing-algorithm key bytes (the output is the byte-string encoding of
sec_edward resp. pub_edward, independent of the key-agreement
component), and every successfully decoded key carries the conversion of
its signing bytes as its key-agreement component. -/
theorem claim5_signing_bytes_only (convSK convPK : List Nat → List Nat) :
    (∀ k : SecretKey, enc_secret_key k = bytesEnc k.sec_edward) ∧
    (∀ k j : SecretKey, k.sec_edward = j.sec_edward → enc_secret_key k = enc_secret_key j) ∧
    (∀ k : PublicKey, enc_public_key k = bytesEnc k.pub_edward) ∧
    (∀ k j : PublicKey, k.pub_edward = j.pub_edward → enc_public_key k = enc_public_key j) ∧
    (∀ s k r, dec_secret_key convSK s = .ok (k, r) → k.sec_curve = convSK k.sec_edward) ∧
    (∀ s k r, dec_public_key convPK s = .ok (k, r) → k.pub_curve = convPK k.pub_edward) := by
  refine ⟨fun k => rfl, fun k j h => ?_, fun k => rfl, fun k j h => ?_,
    fun s k r h => ?_, fun s k r h => ?_⟩
  · simp [enc_secret_key, h]
  · simp [enc_public_key, h]
  · unfold dec_secret_key at h
    cases hb : bytesNdec 64 s with
    | ok p => rw [hb] at h; cases h; rfl
    | error e => rw [hb] at h; cases h
  · unfold dec_public_key at h
    cases hb : bytesNdec 32 s with
    | ok p => rw [hb] at h; cases h; rfl
    | error e => rw [hb] at h; cases h

/-- Witness for C5 at concrete sample values. -/
theorem claim5_signing_bytes_only_witness :
    enc_secret_key sk0 = bytesEnc sk0.sec_edward ∧
    sk0.sec_curve = convSK0 sk0.sec_edward ∧
    pk0.pub_curve = convPK0 pk0.pub_edward := by
  have h := claim5_signing_bytes_only convSK0 convPK0
  exact ⟨h.1 sk0,
    h.2.2.2.2.1 (enc_secret_key sk0) sk0 [] rfl,
    h.2.2.2.2.2 (enc_public_key pk0) pk0 [] rfl⟩

/-- C6: the identity-key codec delegates to the public-key codec:
encoding is byte-identical to encoding the underlying public key, and
decoding is exactly public-key decoding followed by wrapping, so it
succeeds and fails on exactly the same inputs with the same errors. -/
theorem claim6_identity_key_delegation (convPK : List Nat → List Nat) :
    (∀ k : IdentityKey, enc_identity_key k = enc_public_key k.public_key) ∧
    (∀ s : List Nat,
      dec_identity_key convPK s =
        Except.map (fun p => ({ public_key := p.1 }, p.2)) (dec_public_key convPK s)) := by
  refine ⟨fun k => rfl, fun s => ?_⟩
  cases h : dec_public_key convPK s with
  | ok p => simp [dec_identity_key, h, Except.map]
  | error e => simp [dec_identity_key, h, Except.map]

/-- C7: enc_keypair writes the SecretKey encoding immediately followed
by the PublicKey encoding, with no envelope and no length or version
tag, and dec_keypair reads a SecretKey then a PublicKey in that fixed
order, propagating the first error. -/
theorem claim7_keypair_layout (convSK convPK : List Nat → List Nat) :
    (∀ k : KeyPair,
      enc_keypair k = bytesEnc k.secret_key.sec_edward ++ bytesEnc k.public_key.pub_edward) ∧
    (∀ s e, dec_secret_key convSK s = .error e →
      dec_keypair convSK convPK s = .error e) ∧
    (∀ s sk s1 e, dec_secret_key convSK s = .ok (sk, s1) →
      dec_public_key convPK s1 = .error e →
      dec_keypair convSK convPK s = .error e) ∧
    (∀ s sk s1 pk s2, dec_secret_key convSK s = .ok (sk, s1) →
      dec_public_key convPK s1 = .ok (pk, s2) →
      dec_keypair convSK convPK s = .ok ({ secret_key := sk, public_key := pk }, s2)) := by
  refine ⟨fun k => rfl, fun s e h => ?_, fun s sk s1 e h1 h2 => ?_,
    fun s sk s1 pk s2 h1 h2 => ?_⟩
  · simp [dec_keypair, h]
  · simp [dec_keypair, h1, h2]
  · simp [dec_keypair, h1, h2]

/-- Witness for C7 at concrete sample values. -/
theorem claim7_keypair_layout_witness :
    enc_keypair kp0 = bytesEnc kp0.secret_key.sec_edward ++ bytesEnc kp0.public_key.pub_edward ∧
    dec_keypair convSK0 convPK0 [] = .error .endOfStream ∧
    dec_keypair convSK0 convPK0 (enc_secret_key sk0) = .error .endOfStream ∧
    dec_keypair convSK0 convPK0 (enc_secret_key sk0 ++ enc_public_key pk0) =
      .ok ({ secret_key := sk0, public_key := pk0 }, []) := by
  have h := claim7_keypair_layout convSK0 convPK0
  exact ⟨h.1 kp0,
    h.2.1 [] .endOfStream rfl,
    h.2.2.1 (enc_secret_key sk0) sk0 [] .endOfStream rfl rfl,
    h.2.2.2 (enc_secret_key sk0 ++ enc_public_key pk0) sk0 (enc_public_key pk0) pk0 []
      (by rw [dec_enc_secret_key convSK0 sk0 (enc_public_key pk0) ⟨rfl, rfl⟩])
      (by simpa using dec_enc_public_key convPK0 pk0 [] ⟨rfl, rfl⟩)⟩

/-- C8: encoding PreKeyId 42 yields the u16 type byte followed by the
two-byte big-endian representation of 42, and decoding that output
returns PreKeyId 42. -/
theorem claim8_prekey_id_42 :
    enc_prekey_id { val := 42 } = [25] ++ natToBE 2 42 ∧
    natToBE 2 42 = [0, 42] ∧
    dec_prekey_id (enc_prekey_id { val := 42 }) = .ok ({ val := 42 }, []) :=
  ⟨rfl, rfl, rfl⟩

/-- C9: decoding is deterministic: two runs of dec_secret_key on the
same bytes yield the same key-agreement scalar (indeed the same key),
and two runs of dec_public_key on the same bytes yield the same
key-agreement group element. -/
theorem claim9_decode_deterministic (convSK convPK : List Nat → List Nat)
    (s t r1 r2 q1 q2 : List Nat) (k1 k2 : SecretKey) (p1 p2 : PublicKey)
    (h1 : dec_secret_key convSK s = .ok (k1, r1))
    (h2 : dec_secret_key convSK s = .ok (k2, r2))
    (h3 : dec_public_key convPK t = .ok (p1, q1))
    (h4 : dec_public_key convPK t = .ok (p2, q2)) :
    k1.sec_curve = k2.sec_curve ∧ k1 = k2 ∧ p1.pub_curve = p2.pub_curve ∧ p1 = p2 := by
  rw [h1] at h2
  rw [h3] at h4
  cases h2
  cases h4
  exact ⟨rfl, rfl, rfl, rfl⟩

/-- Witness for C9 at concrete sample values. -/
theorem claim9_decode_deterministic_witness :
    sk0.sec_curve = sk0.sec_curve ∧ sk0 = sk0 ∧
    pk0.pub_curve = pk0.pub_curve ∧ pk0 = pk0 :=
  claim9_decode_deterministic convSK0 convPK0 (enc_secret_key sk0) (enc_public_key pk0)
    [] [] [] [] sk0 sk0 pk0 pk0 rfl rfl rfl rfl

end Proteus
